import Mathlib

/-!
# Verification of the `pyar3` STO result-report parser and configuration generator

Shallow embedding of `src/pyar3/sto.py`.  Python `float` values are modelled
exactly as rationals extended with `nan` and signed infinities (`PyFloat`);
Python exceptions (`ValueError`, `KeyError`, `IndexError`, `ZeroDivisionError`,
`AttributeError`, pydantic validation errors) are modelled by the `Except PyErr`
monad.  Raw report lines are Lean `String`s.  The delimiter is a single
character (every call site passes `"\t"` or `";"`), so `line.split(sep)` is
modelled by the character-level `pySplit`, `.strip()` by `pyStrip` and
`.lower()` by `pyLower`.  The Python float literal grammar is modelled for
decimal literals with optional sign, fraction and exponent plus
`nan`/`inf`/`infinity`; underscore separators and the rounding of decimal
literals to binary doubles are not modelled (literals denote their exact
rational value).
-/

instance exceptDecEq {ε α : Type} [DecidableEq ε] [DecidableEq α] :
    DecidableEq (Except ε α)
  | .ok a, .ok b =>
    if h : a = b then .isTrue (by rw [h]) else .isFalse (by simp [h])
  | .ok _, .error _ => .isFalse (by simp)
  | .error _, .ok _ => .isFalse (by simp)
  | .error e, .error f =>
    if h : e = f then .isTrue (by rw [h]) else .isFalse (by simp [h])

/-- Python exception kinds raised by the embedded code. -/
inductive PyErr where
  | valueError
  | keyError
  | indexError
  | zeroDivisionError
  | attributeError
  | validationError
deriving DecidableEq, Repr

/-- A Python `float` value, modelled exactly: a rational, `nan`, or a signed
infinity. -/
inductive PyFloat where
  | val (q : ℚ)
  | nan
  | inf (neg : Bool)
deriving DecidableEq, Repr

/-- Negation of a Python float, used for a leading `-` sign in a literal. -/
def PyFloat.neg : PyFloat → PyFloat
  | .val q => .val (-q)
  | .nan => .nan
  | .inf b => .inf (!b)

/-- Model of Python `str.split(sep)` for a one-character separator, on
character lists: every occurrence of `sep` separates fields, empty fields are
kept, and the result is never empty. -/
def splitOnChar (sep : Char) : List Char → List (List Char)
  | [] => [[]]
  | c :: cs =>
    let r := splitOnChar sep cs
    if c = sep then [] :: r
    else
      match r with
      | [] => [[c]]
      | f :: rest => (c :: f) :: rest

/-- Model of Python `line.split(sep)` for a one-character separator. -/
def pySplit (sep : Char) (s : String) : List String :=
  (splitOnChar sep s.toList).map (fun cs => String.mk cs)

/-- Whitespace characters removed by Python `str.strip()` (the ASCII ones). -/
def isPySpace (c : Char) : Bool :=
  c = ' ' || c = '\t' || c = '\n' || c = '\r' || c = '\x0b' || c = '\x0c'

/-- Model of Python `str.strip()`. -/
def pyStrip (s : String) : String :=
  String.mk (((s.toList.dropWhile isPySpace).reverse.dropWhile isPySpace).reverse)

/-- Model of Python `str.lower()` (ASCII letters; the report tokens are
ASCII). -/
def pyLower (s : String) : String :=
  String.mk (s.toList.map Char.toLower)

/-- Value of a decimal digit character. -/
def digitChar? (c : Char) : Option ℕ :=
  if c.isDigit then some (c.toNat - '0'.toNat) else none

/-- Value of a nonempty all-digit character list; `none` otherwise. -/
def digitsVal? (cs : List Char) : Option ℕ :=
  if cs.isEmpty then none
  else
    cs.foldl
      (fun acc c =>
        match acc, digitChar? c with
        | some n, some d => some (10 * n + d)
        | _, _ => none)
      (some 0)

/-- Parse the mantissa of a Python float literal (`digits`, `digits.digits`,
`digits.` or `.digits`), returning the numerator over `10 ^ fraction-length`
together with the fraction length. -/
def mantissaParts? (m : String) : Option (ℕ × ℕ) :=
  match pySplit '.' m with
  | [intPart] => (digitsVal? intPart.toList).map (fun n => (n, 0))
  | [intPart, fracPart] =>
    if intPart.toList.isEmpty && fracPart.toList.isEmpty then none
    else
      let ip := if intPart.toList.isEmpty then some 0 else digitsVal? intPart.toList
      let fp := if fracPart.toList.isEmpty then some 0 else digitsVal? fracPart.toList
      match ip, fp with
      | some i, some f => some (i * 10 ^ fracPart.toList.length + f, fracPart.toList.length)
      | _, _ => none
  | _ => none

/-- Parse an optionally signed decimal integer character list. -/
def signedDigits? (cs : List Char) : Option ℤ :=
  match cs with
  | '+' :: rest => (digitsVal? rest).map Int.ofNat
  | '-' :: rest => (digitsVal? rest).map (fun n => -(n : ℤ))
  | rest => (digitsVal? rest).map Int.ofNat

/-- Parse an unsigned Python float literal body (already stripped and
lower-cased, sign removed). -/
def pyUnsigned? (body : String) : Option PyFloat :=
  if body = "nan" then some .nan
  else if body = "inf" || body = "infinity" then some (.inf false)
  else
    match pySplit 'e' body with
    | [m] => (mantissaParts? m).map (fun p => .val (mkRat p.1 (10 ^ p.2)))
    | [m, ex] =>
      match mantissaParts? m, signedDigits? ex.toList with
      | some p, some e =>
        let s : ℤ := e - p.2
        some (.val (mkRat (p.1 * 10 ^ s.toNat) (10 ^ (-s).toNat)))
      | _, _ => none
    | _ => none

/-- Model of Python `float(s)`: `some` value on success, `none` when
`ValueError` would be raised. -/
def pyFloat? (s : String) : Option PyFloat :=
  let t := pyLower (pyStrip s)
  match t.toList with
  | '+' :: cs => pyUnsigned? (String.mk cs)
  | '-' :: cs => (pyUnsigned? (String.mk cs)).map PyFloat.neg
  | _ => pyUnsigned? t

/-- Model of Python `int(s)` on a string: optionally signed decimal digits,
surrounding whitespace allowed. -/
def pyInt? (s : String) : Option ℤ :=
  signedDigits? (pyStrip s).toList

/-- Embedding of `is_float` (sto.py line 54): `True` iff `float(value)`
succeeds. -/
def is_float (value : String) : Bool :=
  (pyFloat? value).isSome

/-- The trimmed first field of a line split by `sep`:
`line.split(sep)[0].strip()`. -/
def firstField (sep : Char) (line : String) : String :=
  pyStrip ((pySplit sep line).headD "")

/-- Embedding of the section-marker search loop shared by the extractors
(sto.py lines 131-137, 195-201, 298-304): `start` is the index of the first
line whose trimmed first field equals `marker`, plus `off` (1 for Meta-Data
and Mission, 2 for Indicators); when no line matches, `start` keeps its
initial value `len(raw_lines)`. -/
def locate (raw_lines : List String) (sep : Char) (marker : String) (off : ℕ) : ℕ :=
  match raw_lines.findIdx? (fun line => firstField sep line == marker) with
  | some i => i + off
  | none => raw_lines.length

/-- Embedding of the `STOMetaData` pydantic model (sto.py lines 118-124):
every field optional with default `None`. -/
structure STOMetaData where
  main_block : Option String := none
  source_file : Option String := none
  tool_version : Option String := none
  compiler_version : Option String := none
deriving DecidableEq, Repr

/-- One step of the Meta-Data key/value dispatch (sto.py lines 148-155);
unrecognized keys are ignored. -/
def metaUpdate (acc : STOMetaData) (key value : String) : STOMetaData :=
  if key = "Source file" then { acc with source_file := some value }
  else if key = "Main block" then { acc with main_block := some value }
  else if key = "Tool version" then { acc with tool_version := some value }
  else if key = "Compiler version" then { acc with compiler_version := some value }
  else acc

/-- Embedding of the Meta-Data section loop (sto.py lines 139-155): read
key/value lines, stopping at the first line with fewer than two fields. -/
def metaLoop (sep : Char) : List String → STOMetaData → STOMetaData
  | [], acc => acc
  | line :: rest, acc =>
    let ls := pySplit sep line
    if ls.length ≤ 1 then acc
    else metaLoop sep rest (metaUpdate acc (pyStrip (ls.headD "")) (pyStrip (ls.getD 1 "")))

/-- Embedding of `STOMetaData.from_raw_lines` (sto.py lines 126-159). -/
def STOMetaData.from_raw_lines (raw_lines : List String) (sep : Char) : STOMetaData :=
  metaLoop sep (raw_lines.drop (locate raw_lines sep "Meta-Data" 1)) {}

/-- The `mean`/`min`/`max` statistics dictionary built for
`"Number of events fired per execution"` (sto.py lines 226-229). -/
structure EventFiredStats where
  mean : PyFloat
  min : PyFloat
  max : PyFloat
deriving DecidableEq, Repr

/-- Accumulator for the Mission section loop: the raw `cls_specs` dictionary
(sto.py line 193).  `nb_executions` keeps the raw string because the code
stores the uncoerced value (line 214); pydantic coerces it to `int` only at
construction time (line 231). -/
structure MissionSpecs where
  nb_executions : Option String := none
  seed : Option ℤ := none
  mission_time : Option PyFloat := none
  date_start : Option String := none
  date_end : Option String := none
  event_fired_stats : Option EventFiredStats := none
deriving DecidableEq, Repr

/-- Embedding of the `STOMissionResult` pydantic model (sto.py lines 180-188). -/
structure STOMissionResult where
  nb_executions : Option ℤ := none
  seed : Option ℤ := none
  mission_time : Option PyFloat := none
  date_start : Option String := none
  date_end : Option String := none
  event_fired_stats : Option EventFiredStats := none
deriving DecidableEq, Repr

/-- `float()` applied to an indexed token: `IndexError` when the index is out
of range, `ValueError` when the token is not a float literal. -/
def pyFloatTok (t : Option String) : Except PyErr PyFloat :=
  match t with
  | none => .error .indexError
  | some s =>
    match pyFloat? s with
    | some f => .ok f
    | none => .error .valueError

/-- Embedding of the event-statistics look-ahead (sto.py lines 224-229):
`indic_def_lines[i+2].split(sep)` and `float` of its tokens 0, 1, 2 in order. -/
def readEventStats (all : List String) (sep : Char) (i : ℕ) : Except PyErr EventFiredStats :=
  match all[i + 2]? with
  | none => .error .indexError
  | some l2 =>
    let ts := pySplit sep l2
    match pyFloatTok ts[0]? with
    | .error e => .error e
    | .ok m =>
      match pyFloatTok ts[1]? with
      | .error e => .error e
      | .ok mn =>
        match pyFloatTok ts[2]? with
        | .error e => .error e
        | .ok mx => .ok ⟨m, mn, mx⟩

/-- The first three tokens of a split line parsed as floats, when all three
are present and parse. -/
def pyFloat3 (ts : List String) : Option (PyFloat × PyFloat × PyFloat) :=
  match ts[0]?, ts[1]?, ts[2]? with
  | some a, some b, some c =>
    match pyFloat? a, pyFloat? b, pyFloat? c with
    | some x, some y, some z => some (x, y, z)
    | _, _, _ => none
  | _, _, _ => none

/-- Embedding of the Mission section loop (sto.py lines 203-229): `all` is
`indic_def_lines` (kept whole for the index-`i+2` look-ahead), `i` the index
of the first line of `rem` in `all`.  `int(value)` and `float(value)`
failures raise `ValueError`. -/
def missionLoop (all : List String) (sep : Char) : ℕ → List String → MissionSpecs →
    Except PyErr MissionSpecs
  | _, [], acc => .ok acc
  | i, line :: rest, acc =>
    let ls := pySplit sep line
    let key := pyStrip (ls.headD "")
    if ls.length ≤ 1 then .ok acc
    else
      let value := pyStrip (ls.getD 1 "")
      if key = "Number of executions" then
        missionLoop all sep (i + 1) rest { acc with nb_executions := some value }
      else if key = "Seed" then
        match pyInt? value with
        | some n => missionLoop all sep (i + 1) rest { acc with seed := some n }
        | none => .error .valueError
      else if key = "Mission time" then
        match pyFloat? value with
        | some f => missionLoop all sep (i + 1) rest { acc with mission_time := some f }
        | none => .error .valueError
      else if key = "Started" then
        missionLoop all sep (i + 1) rest { acc with date_start := some value }
      else if key = "Completed" then
        missionLoop all sep (i + 1) rest { acc with date_end := some value }
      else if key = "Number of events fired per execution" then
        match readEventStats all sep i with
        | .ok st => missionLoop all sep (i + 1) rest { acc with event_fired_stats := some st }
        | .error e => .error e
      else missionLoop all sep (i + 1) rest acc

/-- Embedding of `STOMissionResult.from_raw_lines` (sto.py lines 190-233),
including the pydantic `int` coercion of `nb_executions` at construction. -/
def STOMissionResult.from_raw_lines (raw_lines : List String) (sep : Char) :
    Except PyErr STOMissionResult :=
  let L := raw_lines.drop (locate raw_lines sep "Mission" 1)
  match missionLoop L sep 0 L {} with
  | .error e => .error e
  | .ok specs =>
    match
      (match specs.nb_executions with
       | none => Except.ok (α := Option ℤ) none
       | some s =>
         match pyInt? s with
         | some n => Except.ok (some n)
         | none => Except.error PyErr.validationError) with
    | .error e => .error e
    | .ok nbex =>
      .ok { nb_executions := nbex, seed := specs.seed, mission_time := specs.mission_time,
            date_start := specs.date_start, date_end := specs.date_end,
            event_fired_stats := specs.event_fired_stats }

/-- The value of the `ic95` derivation `1.96*std/math.sqrt(sample_size)`
(sto.py lines 349-351), kept symbolically because `√n` is irrational:
`deriv std n` stands for the real number `1.96 * std / √n` (with `n > 0`),
`nan` for the result when `std` is NaN, `inf b` for a signed infinite `std`. -/
inductive Ic95 where
  | nan
  | inf (neg : Bool)
  | deriv (std : ℚ) (n : ℤ)
deriving DecidableEq, Repr

/-- Embedding of `1.96*data_cur["std"]/math.sqrt(data_cur["sample_size"])`
(sto.py lines 349-351) with Python semantics: `math.sqrt` of a negative
integer raises `ValueError`; division of any float (including NaN) by the
float `0.0 = math.sqrt(0)` raises `ZeroDivisionError`; otherwise the quotient
is NaN iff `std` is NaN, an infinity of the sign of `std` if `std` is
infinite, and the exact value `1.96*std/√n` otherwise. -/
def computeIc95 (std : PyFloat) (n : ℤ) : Except PyErr Ic95 :=
  if n < 0 then .error .valueError
  else if n = 0 then .error .zeroDivisionError
  else
    .ok (match std with
      | .nan => .nan
      | .inf b => .inf b
      | .val q => .deriv q n)

/-- One parsed data row of an indicator series: the `data_cur` dictionary
(sto.py lines 340-351). -/
structure SamplePoint where
  date : PyFloat
  sample_size : ℤ
  mean : PyFloat
  std : PyFloat
  ic95 : Ic95
deriving DecidableEq, Repr

/-- Embedding of the `STOIndicator` pydantic model after validation
(sto.py lines 85-115).  `id`, `name`, `description` and `value` are plain
strings because `cls_validator` always fills them; `data` is the indicator
series (Python `None` or a list; the final `pd.DataFrame` conversion keeps
the rows). -/
structure STOIndicator where
  id : String
  name : String
  description : String
  unit : Option String := none
  tags : List String := []
  observer : Option String := none
  block : Option String := none
  type : Option String := none
  measure : Option String := none
  value : String
  stats : List String := []
  data : Option (List SamplePoint) := none
deriving DecidableEq, Repr

/-- The field dictionary seen by `cls_validator` (sto.py line 97): every
declared field is present, unset ones as `None` (pydantic defaults applied,
string fields already coerced to `str`). -/
structure RawIndicator where
  id : Option String := none
  name : Option String := none
  description : Option String := none
  unit : Option String := none
  tags : List String := []
  observer : Option String := none
  block : Option String := none
  type : Option String := none
  measure : Option String := none
  value : Option String := none
  stats : List String := []
  data : Option (List SamplePoint) := none
deriving DecidableEq, Repr

/-- Python f-string interpolation of an optional string: `None` renders as
`"None"`. -/
def pyFStr : Option String → String
  | none => "None"
  | some s => s

/-- Embedding of `STOIndicator.cls_validator` (sto.py lines 96-115).
`fresh` is the `str(uuid.uuid4())` value used when `id` is `None`. -/
def STOIndicator.ofRaw (fresh : String) (r : RawIndicator) : STOIndicator :=
  let id := match r.id with | none => fresh | some s => s
  let name :=
    match r.name with
    | none => pyFStr r.observer ++ "__" ++ pyFStr r.measure
    | some s => s
  let description := match r.description with | none => name | some s => s
  let value :=
    if r.type = some "Boolean" then
      match r.value with
      | some v =>
        if v = "true" || v = "false" || v = "True" || v = "False" then pyLower v
        else "true"
      | none => "true"
    else "non applicable"
  { id := id, name := name, description := description, unit := r.unit, tags := r.tags,
    observer := r.observer, block := r.block, type := r.type, measure := r.measure,
    value := value, stats := r.stats, data := r.data }

/-- The raw field dictionary obtained from the fields of an already
constructed indicator (re-construction input for idempotence). -/
def STOIndicator.toRaw (ind : STOIndicator) : RawIndicator :=
  { id := some ind.id, name := some ind.name, description := some ind.description,
    unit := ind.unit, tags := ind.tags, observer := ind.observer, block := ind.block,
    type := ind.type, measure := ind.measure, value := some ind.value,
    stats := ind.stats, data := ind.data }

/-- The `indics_dict` insertion-ordered Python dictionary, as an association
list. -/
abbrev IndicsDict := List (String × STOIndicator)

/-- Python dictionary lookup `d[k]` (keys are unique, so first match wins). -/
def dictLookup : IndicsDict → String → Option STOIndicator
  | [], _ => none
  | p :: d, k => if p.1 = k then some p.2 else dictLookup d k

/-- Python dictionary assignment `d[k] = v`: an existing key keeps its
position, a new key is appended. -/
def dictSet (d : IndicsDict) (k : String) (v : STOIndicator) : IndicsDict :=
  if d.any (fun p => p.1 = k) then d.map (fun p => if p.1 = k then (k, v) else p)
  else d ++ [(k, v)]

/-- Embedding of the phase-1 definition loop of `indicators_from_raw_lines`
(sto.py lines 307-327): each line with at least two fields defines one
indicator (id = trimmed first field, observer = trimmed second field); the
loop stops at the first short line, recording `start = i + 1`.  Returns the
dictionary and `some (i+1)` for a break at relative index `i`, `none` when
the loop ran to the end (in which case the Python `start` variable keeps its
previous value). -/
def indicPhase1 (sep : Char) : List String → ℕ → IndicsDict → IndicsDict × Option ℕ
  | [], _, acc => (acc, none)
  | line :: rest, i, acc =>
    let ls := pySplit sep line
    if ls.length ≤ 1 then (acc, some (i + 1))
    else
      let indic_id := pyStrip (ls.headD "")
      let observer := pyStrip (ls.getD 1 "")
      indicPhase1 sep rest (i + 1)
        (dictSet acc indic_id
          (STOIndicator.ofRaw ""
            { id := some indic_id, name := some indic_id, observer := some observer }))

/-- Embedding of the construction of `data_cur` (sto.py lines 340-351) from a
stripped-and-split data line whose first field parses as a float: `date`
and `sample_size` are mandatory positional columns (`IndexError` when the
second is missing, `ValueError` when it is not an `int`), `mean` and `std`
default to NaN when the third/fourth columns are absent, and `ic95` is
derived by `computeIc95`. -/
def mkSamplePoint (ls : List String) : Except PyErr SamplePoint :=
  match pyFloat? (ls.headD "") with
  | none => .error .valueError
  | some date =>
    match ls[1]? with
    | none => .error .indexError
    | some s1 =>
      match pyInt? s1 with
      | none => .error .valueError
      | some n =>
        match (if 3 ≤ ls.length then pyFloat? (ls.getD 2 "") else some PyFloat.nan) with
        | none => .error .valueError
        | some mean =>
          match (if 4 ≤ ls.length then pyFloat? (ls.getD 3 "") else some PyFloat.nan) with
          | none => .error .valueError
          | some std =>
            match computeIc95 std n with
            | .error e => .error e
            | .ok ic95 =>
              .ok { date := date, sample_size := n, mean := mean, std := std, ic95 := ic95 }

/-- Embedding of the phase-2 data loop of `indicators_from_raw_lines`
(sto.py lines 328-355): a line whose (unstripped) first field of the stripped
line equals `"Indicator"` switches the current indicator (`KeyError` when the
named id was never defined, `IndexError` when the id field is missing) and
resets its series; a line whose first field parses as a float while a current
indicator is active appends one `SamplePoint`; other lines are skipped. -/
def phase2 (sep : Char) : List String → IndicsDict → Option String → Except PyErr IndicsDict
  | [], d, _ => .ok d
  | line :: rest, d, cur =>
    let ls := pySplit sep (pyStrip line)
    if ls.headD "" = "Indicator" then
      match ls[1]? with
      | none => .error .indexError
      | some id =>
        match dictLookup d id with
        | none => .error .keyError
        | some ind => phase2 sep rest (dictSet d id { ind with data := some [] }) (some id)
    else if is_float (ls.headD "") && cur.isSome then
      match cur with
      | none => phase2 sep rest d cur
      | some id =>
        match mkSamplePoint ls with
        | .error e => .error e
        | .ok pt =>
          match dictLookup d id with
          | none => .error .keyError
          | some ind =>
            match ind.data with
            | none => .error .attributeError
            | some pts =>
              phase2 sep rest (dictSet d id { ind with data := some (pts ++ [pt]) }) cur
    else phase2 sep rest d cur

/-- The final `pd.DataFrame` conversion loop (sto.py lines 356-358): an
indicator never referenced in phase 2 keeps `data = None`, which
`pd.DataFrame` turns into an empty table. -/
def finalizeData (d : IndicsDict) : IndicsDict :=
  d.map (fun p => (p.1, { p.2 with data := some (p.2.data.getD []) }))

/-- The `indic_def_lines` slice (sto.py line 306). -/
def indicDefLines (raw_lines : List String) (sep : Char) : List String :=
  raw_lines.drop (locate raw_lines sep "Indicators" 2)

/-- The phase-1 result: definition dictionary and break position. -/
def indicPhase1Res (raw_lines : List String) (sep : Char) : IndicsDict × Option ℕ :=
  indicPhase1 sep (indicDefLines raw_lines sep) 0 []

/-- The `indic_data_lines` slice (sto.py line 329): `indic_def_lines[start:]`
where `start` is the phase-1 break position, or its previous value
(the located section start) when phase 1 never broke. -/
def indicDataLines (raw_lines : List String) (sep : Char) : List String :=
  (indicDefLines raw_lines sep).drop
    ((indicPhase1Res raw_lines sep).2.getD (locate raw_lines sep "Indicators" 2))

/-- Embedding of `STOStudyResults.indicators_from_raw_lines`
(sto.py lines 293-360). -/
def indicators_from_raw_lines (raw_lines : List String) (sep : Char) :
    Except PyErr IndicsDict :=
  match phase2 sep (indicDataLines raw_lines sep) (indicPhase1Res raw_lines sep).1 none with
  | .error e => .error e
  | .ok d => .ok (finalizeData d)

/-- Embedding of the `STOStudyResults` aggregate (sto.py lines 236-245). -/
structure STOStudyResults where
  meta_data : STOMetaData
  mission : STOMissionResult
  indicators : IndicsDict
deriving DecidableEq, Repr

/-- Embedding of `STOStudyResults.from_raw_lines` (sto.py lines 272-291):
the three extractors run independently over the same lines; afterwards, when
`meta_data.main_block` is not `None`, every indicator's `block` is set to it. -/
def STOStudyResults.from_raw_lines (raw_lines : List String) (sep : Char) :
    Except PyErr STOStudyResults :=
  let meta := STOMetaData.from_raw_lines raw_lines sep
  match STOMissionResult.from_raw_lines raw_lines sep with
  | .error e => .error e
  | .ok mission =>
    match indicators_from_raw_lines raw_lines sep with
    | .error e => .error e
    | .ok indics =>
      let indics :=
        match meta.main_block with
        | none => indics
        | some b => indics.map (fun p => (p.1, { p.2 with block := some b }))
      .ok { meta_data := meta, mission := mission, indicators := indics }

/-- Embedding of `STOStudyResults.get_simu_csv_result_sep`
(sto.py lines 247-252): `";" in raw_lines[1]` (an `IndexError` when the file
has fewer than two lines), semicolon wins, tab otherwise. -/
def get_simu_csv_result_sep (raw_lines : List String) : Except PyErr Char :=
  match raw_lines[1]? with
  | none => .error .indexError
  | some l => .ok (if l.toList.contains ';' then ';' else '\t')

/-- Embedding of the `STOSimulationParam` pydantic model (sto.py lines
162-177) with its schema defaults; `schedule_to` is required.  The schedule
numbers are Python floats; they are modelled as exact rationals (a NaN
schedule value is not modelled). -/
structure STOSimulationParam where
  nb_runs : ℤ := 100
  seed : ℤ := 1234
  result_filename : String := "result.csv"
  schedule_name : String := "Date"
  schedule_unit : Option String := none
  schedule_from : Option ℚ := none
  schedule_to : ℚ
  schedule_step : Option ℚ := none
deriving DecidableEq, Repr

/-- An XML element: tag, attributes in insertion order, children in insertion
order (the `lxml.etree` tree built by the generators). -/
inductive Xml where
  | elem (tag : String) (attrs : List (String × String)) (children : List Xml)

/-- Model of Python `str(float)` for the schedule numbers: sign, then the
shortest terminating decimal expansion, always with at least one digit after
the point (`str(5.0) == "5.0"`).  Scientific notation for extreme magnitudes
and non-terminating rationals (unreachable from binary floats) are not
modelled. -/
def pyStrQ (q : ℚ) : String :=
  let sign := if q.num < 0 then "-" else ""
  let n := q.num.natAbs
  let d := q.den
  match (List.range 41).find? (fun e => (n * 10 ^ e) % d = 0) with
  | some e =>
    let whole := n * 10 ^ e / d
    if e = 0 then sign ++ toString whole ++ ".0"
    else
      let cs := (toString whole).toList
      let cs := if cs.length ≤ e then List.replicate (e + 1 - cs.length) '0' ++ cs else cs
      let k := cs.length - e
      sign ++ String.mk (cs.take k) ++ "." ++ String.mk (cs.drop k)
  | none => sign ++ toString n ++ "/" ++ toString d

/-- Python `str()` of an optional float: `str(None) == "None"`. -/
def pyStrOptQ : Option ℚ → String
  | none => "None"
  | some q => pyStrQ q

/-- Python truthiness of an optional float (`if self.simu_params.schedule_step:`,
sto.py line 462): `None` and `0.0` are falsy, every other value truthy. -/
def pyTruthyOptQ : Option ℚ → Bool
  | none => false
  | some q => q.num ≠ 0

/-- Embedding of `STOStudy.to_mdf` (sto.py lines 445-476), as a pure function
from the simulation parameters (and the optional `result_filename` override,
line 447-448) to the generated element tree; file writing and the XML
declaration are outside the model. -/
def to_mdf (sp : STOSimulationParam) (result_filename : Option String) : Xml :=
  let sp :=
    match result_filename with
    | some f => { sp with result_filename := f }
    | none => sp
  Xml.elem "ar3ccp" []
    [Xml.elem "simulation"
      [("seed", toString sp.seed), ("number-of-runs", toString sp.nb_runs),
       ("results-csv", sp.result_filename)]
      [Xml.elem "schedule" [("mission-time", pyStrQ sp.schedule_to)]
        (if pyTruthyOptQ sp.schedule_step then
          [Xml.elem "range"
            [("step", pyStrOptQ sp.schedule_step), ("from", pyStrOptQ sp.schedule_from),
             ("to", pyStrQ sp.schedule_to)] []]
        else [])]]

mutual

/-- All `range`-tagged elements of an XML tree, in document order. -/
def Xml.rangeElts : Xml → List Xml
  | .elem tag attrs children =>
    (if tag = "range" then [Xml.elem tag attrs children] else []) ++ rangeEltsList children

/-- All `range`-tagged elements of a forest, in document order. -/
def rangeEltsList : List Xml → List Xml
  | [] => []
  | x :: xs => x.rangeElts ++ rangeEltsList xs

end

/-! ## Helper lemmas -/

theorem locate_of_no_marker {raw_lines : List String} {sep : Char} {marker : String}
    {off : ℕ} (h : ∀ l ∈ raw_lines, firstField sep l ≠ marker) :
    locate raw_lines sep marker off = raw_lines.length := by
  unfold locate
  have hnone : raw_lines.findIdx? (fun line => firstField sep line == marker) = none := by
    rw [List.findIdx?_eq_none_iff]
    intro x hx
    simpa using h x hx
  rw [hnone]

/-! ## Claim theorems -/

/-- C4: for every line sequence in which a section marker ("Meta-Data",
"Mission", or "Indicators") does not occur as the trimmed first field of any
line, the corresponding extractor returns a default/empty record (all-`None`
metadata or mission fields, empty indicator mapping) and does not raise an
error. -/
theorem C4_no_marker_defaults (raw_lines : List String) (sep : Char) :
    ((∀ l ∈ raw_lines, firstField sep l ≠ "Meta-Data") →
      STOMetaData.from_raw_lines raw_lines sep = {}) ∧
    ((∀ l ∈ raw_lines, firstField sep l ≠ "Mission") →
      STOMissionResult.from_raw_lines raw_lines sep = .ok {}) ∧
    ((∀ l ∈ raw_lines, firstField sep l ≠ "Indicators") →
      indicators_from_raw_lines raw_lines sep = .ok []) := by
  refine ⟨fun h => ?_, fun h => ?_, fun h => ?_⟩
  · unfold STOMetaData.from_raw_lines
    rw [locate_of_no_marker h, List.drop_length]
    rfl
  · unfold STOMissionResult.from_raw_lines
    rw [locate_of_no_marker h, List.drop_length]
    rfl
  · unfold indicators_from_raw_lines indicDataLines indicPhase1Res indicDefLines
    rw [locate_of_no_marker h, List.drop_length, List.drop_nil]
    rfl

/-- Witness for C4 at a concrete marker-free line sequence. -/
theorem C4_witness :
    STOMetaData.from_raw_lines ["x\ty", "a\tb"] '\t' = {} ∧
    STOMissionResult.from_raw_lines ["x\ty", "a\tb"] '\t' = .ok {} ∧
    indicators_from_raw_lines ["x\ty", "a\tb"] '\t' = .ok [] :=
  ⟨(C4_no_marker_defaults ["x\ty", "a\tb"] '\t').1 (by decide),
   (C4_no_marker_defaults ["x\ty", "a\tb"] '\t').2.1 (by decide),
   (C4_no_marker_defaults ["x\ty", "a\tb"] '\t').2.2 (by decide)⟩

/-- C6: for every raw line sequence with at least two lines, delimiter
detection inspects line index 1 only: it returns semicolon if that line
contains a semicolon character, and tab otherwise. -/
theorem C6_delimiter_detection (raw_lines : List String) (l1 : String)
    (h : raw_lines[1]? = some l1) :
    get_simu_csv_result_sep raw_lines =
      .ok (if l1.toList.contains ';' then ';' else '\t') := by
  unfold get_simu_csv_result_sep
  rw [h]

/-- Witness for C6 at a concrete two-line sequence. -/
theorem C6_witness : get_simu_csv_result_sep ["h", "a;b"] = .ok ';' := by
  rw [C6_delimiter_detection ["h", "a;b"] "a;b" rfl]
  decide

/-- C3 (amended): the generated MDF document contains exactly one range
element — with `step`, `from` and `to` attributes equal to the spec's
`schedule_step`, `schedule_from` and `schedule_to` string-formatted — iff
`schedule_step` is set to a nonzero value; with `schedule_step` unset or set
to `0.0` (falsy in Python), no range element is generated. -/
theorem C3_range_iff_truthy (sp : STOSimulationParam) (rf : Option String) :
    ((sp.schedule_step = none ∨ sp.schedule_step = some 0) →
      Xml.rangeElts (to_mdf sp rf) = []) ∧
    (∀ st, sp.schedule_step = some st → st ≠ 0 →
      Xml.rangeElts (to_mdf sp rf) =
        [Xml.elem "range"
          [("step", pyStrQ st), ("from", pyStrOptQ sp.schedule_from),
           ("to", pyStrQ sp.schedule_to)] []]) := by
  constructor
  · intro h
    have htr : pyTruthyOptQ sp.schedule_step = false := by
      rcases h with h | h <;> rw [h] <;> simp [pyTruthyOptQ]
    cases rf <;>
      simp [to_mdf, htr, Xml.rangeElts, rangeEltsList]
  · intro st hst hne
    have htr : pyTruthyOptQ (some st) = true := by
      simpa [pyTruthyOptQ] using Rat.num_ne_zero.2 hne
    cases rf <;>
      simp [to_mdf, htr, hst, pyStrOptQ, Xml.rangeElts, rangeEltsList]

/-- C3 counterexample: a simulation parameter record with `schedule_step`
*set* (to `0.0`) whose generated MDF contains no range element, because the
code tests Python truthiness, not presence. -/
theorem C3_counterexample :
    (STOSimulationParam.mk 100 1234 "result.csv" "Date" none none 10
        (some 0)).schedule_step.isSome = true ∧
    Xml.rangeElts
      (to_mdf (STOSimulationParam.mk 100 1234 "result.csv" "Date" none none 10
        (some 0)) none) = [] := by
  refine ⟨rfl, ?_⟩
  unfold to_mdf
  have htr : pyTruthyOptQ (some (0 : ℚ)) = false := by simp [pyTruthyOptQ]
  simp only [htr]
  simp [Xml.rangeElts, rangeEltsList]

/-- Witness for the amended C3 at a concrete record with a nonzero step. -/
theorem C3_witness :
    Xml.rangeElts
      (to_mdf (STOSimulationParam.mk 100 1234 "result.csv" "Date" none (some 0) 10
        (some 5)) none) =
      [Xml.elem "range"
        [("step", pyStrQ 5), ("from", pyStrOptQ (some 0)), ("to", pyStrQ 10)] []] :=
  (C3_range_iff_truthy
    (STOSimulationParam.mk 100 1234 "result.csv" "Date" none (some 0) 10 (some 5))
    none).2 5 rfl (by norm_num)

/-- C5: indicator construction-time normalization is idempotent: constructing
an indicator from the fields of an already-constructed indicator yields the
original, whatever fresh uuid the second construction would draw — in
particular the normalized `value` ("true"/"false" for Boolean type, the
"non applicable" sentinel otherwise) and the `name`/`description` defaults
are fixed points. -/
theorem C5_validator_idempotent (fresh fresh' : String) (r : RawIndicator) :
    STOIndicator.ofRaw fresh' (STOIndicator.ofRaw fresh r).toRaw
      = STOIndicator.ofRaw fresh r := by
  have e1 : pyLower "true" = "true" := by decide
  have e2 : pyLower "false" = "false" := by decide
  have e3 : pyLower "True" = "true" := by decide
  have e4 : pyLower "False" = "false" := by decide
  by_cases ht : r.type = some "Boolean"
  · rcases hv : r.value with _ | v
    · simp [STOIndicator.ofRaw, STOIndicator.toRaw, ht, hv, e1]
    · by_cases h1 : v = "true"
      · simp [STOIndicator.ofRaw, STOIndicator.toRaw, ht, hv, h1, e1]
      · by_cases h2 : v = "false"
        · simp [STOIndicator.ofRaw, STOIndicator.toRaw, ht, hv, h2, e2]
        · by_cases h3 : v = "True"
          · simp [STOIndicator.ofRaw, STOIndicator.toRaw, ht, hv, h3, e3, e1]
          · by_cases h4 : v = "False"
            · simp [STOIndicator.ofRaw, STOIndicator.toRaw, ht, hv, h4, e4, e2]
            · simp [STOIndicator.ofRaw, STOIndicator.toRaw, ht, hv, h1, h2, h3, h4, e1]
  · simp [STOIndicator.ofRaw, STOIndicator.toRaw, ht]

/-- C8: after aggregation of a full report, every indicator whose `block`
field is unset has `block` equal to `metadata.main_block` (the back-fill runs
after all three extractors complete, so an unset block can only remain when
`main_block` is itself `None`). -/
theorem C8_block_backfill (raw_lines : List String) (sep : Char) (res : STOStudyResults)
    (h : STOStudyResults.from_raw_lines raw_lines sep = .ok res)
    (p : String × STOIndicator) (hp : p ∈ res.indicators) (hb : p.2.block = none) :
    p.2.block = res.meta_data.main_block := by
  simp only [STOStudyResults.from_raw_lines] at h
  rcases hm : STOMissionResult.from_raw_lines raw_lines sep with e | mission
  · simp only [hm] at h
    exact Except.noConfusion h
  simp only [hm] at h
  rcases hi : indicators_from_raw_lines raw_lines sep with e' | indics
  · simp only [hi] at h
    exact Except.noConfusion h
  simp only [hi] at h
  rcases hmb : (STOMetaData.from_raw_lines raw_lines sep).main_block with _ | b
  · simp only [hmb, Except.ok.injEq] at h
    subst h
    show p.2.block = (STOMetaData.from_raw_lines raw_lines sep).main_block
    rw [hmb]
    exact hb
  · simp only [hmb, Except.ok.injEq] at h
    subst h
    have hp' : p ∈ indics.map (fun q => (q.1, { q.2 with block := some b })) := hp
    obtain ⟨q, hq, rfl⟩ := List.mem_map.1 hp'
    exact absurd hb (by simp)

/-- Concrete report lines used to witness the aggregation back-fill. -/
def c8lines : List String :=
  ["Indicators", "", "ind1\tobsA", "", "Indicator\tind1", "0.0\t100\t5.0\t1.0"]

/-- The indicator parsed from `c8lines` (no Meta-Data section, so `block`
stays unset). -/
def c8indic : STOIndicator :=
  { id := "ind1", name := "ind1", description := "ind1", observer := some "obsA",
    value := "non applicable",
    data := some [{ date := PyFloat.val 0, sample_size := 100, mean := PyFloat.val 5,
                    std := PyFloat.val 1, ic95 := Ic95.deriv 1 100 }] }

/-- The aggregate parsed from `c8lines`. -/
def c8res : STOStudyResults :=
  { meta_data := {}, mission := {}, indicators := [("ind1", c8indic)] }

/-- Witness for C8 at a concrete report. -/
theorem C8_witness : ("ind1", c8indic).2.block = c8res.meta_data.main_block :=
  C8_block_backfill c8lines '\t' c8res (by decide) ("ind1", c8indic) (by decide) rfl

/-- C10: in phase 2, a line whose first field parses as a float while an
indicator context is active must contain at least two fields: a one-field
numeric line fails the parse with an `IndexError` (never a default), while a
two-field line yields a sample point whose trailing `mean` and `std` columns
default to NaN. -/
theorem C10_mandatory_columns (sep : Char) (line : String) (rest : List String)
    (d : IndicsDict) (id : String)
    (hfloat : is_float ((pySplit sep (pyStrip line)).headD "") = true) :
    ((pySplit sep (pyStrip line)).length = 1 →
      phase2 sep (line :: rest) d (some id) = .error .indexError) ∧
    ((pySplit sep (pyStrip line)).length = 2 →
      ∀ pt, mkSamplePoint (pySplit sep (pyStrip line)) = .ok pt →
        pt.mean = PyFloat.nan ∧ pt.std = PyFloat.nan) := by
  have hni : ¬ ((pySplit sep (pyStrip line)).headD "" = "Indicator") := by
    intro he
    rw [he] at hfloat
    exact absurd hfloat (by decide)
  constructor
  · intro hlen
    obtain ⟨f, hf⟩ := Option.isSome_iff_exists.1 hfloat
    have h1 : (pySplit sep (pyStrip line))[1]? = none :=
      List.getElem?_eq_none (by omega)
    have hmk : mkSamplePoint (pySplit sep (pyStrip line)) = .error .indexError := by
      simp only [mkSamplePoint, hf, h1]
    simp only [phase2, if_neg hni, hfloat, Option.isSome_some, Bool.and_self, if_true, hmk]
  · intro hlen pt hpt
    have h3 : ¬ (3 ≤ (pySplit sep (pyStrip line)).length) := by omega
    have h4 : ¬ (4 ≤ (pySplit sep (pyStrip line)).length) := by omega
    simp only [mkSamplePoint, if_neg h3, if_neg h4] at hpt
    rcases hh : pyFloat? ((pySplit sep (pyStrip line)).headD "") with _ | f
    · simp only [hh] at hpt
      exact Except.noConfusion hpt
    simp only [hh] at hpt
    rcases h1 : (pySplit sep (pyStrip line))[1]? with _ | s1
    · simp only [h1] at hpt
      exact Except.noConfusion hpt
    simp only [h1] at hpt
    rcases h2 : pyInt? s1 with _ | n
    · simp only [h2] at hpt
      exact Except.noConfusion hpt
    simp only [h2] at hpt
    rcases hic : computeIc95 PyFloat.nan n with e | v
    · simp only [hic] at hpt
      exact Except.noConfusion hpt
    simp only [hic, Except.ok.injEq] at hpt
    subst hpt
    exact ⟨rfl, rfl⟩

/-- The sample point parsed from the two-field data line `"0.0\t7"`. -/
def c10pt : SamplePoint :=
  { date := PyFloat.val 0, sample_size := 7, mean := PyFloat.nan, std := PyFloat.nan,
    ic95 := Ic95.nan }

/-- Witness for C10 at a one-field numeric line and a two-field numeric line. -/
theorem C10_witness :
    phase2 '\t' ["3.5"] [] (some "x") = .error .indexError ∧
    (c10pt.mean = PyFloat.nan ∧ c10pt.std = PyFloat.nan) :=
  ⟨(C10_mandatory_columns '\t' "3.5" [] [] "x" (by decide)).1 (by decide),
   (C10_mandatory_columns '\t' "0.0\t7" [] [] "x" (by decide)).2 (by decide) c10pt (by decide)⟩

theorem readEventStats_spec (all : List String) (sep : Char) (i : ℕ) (l2 : String)
    (hl2 : all[i + 2]? = some l2) :
    (∀ a b c, pyFloat3 (pySplit sep l2) = some (a, b, c) →
      readEventStats all sep i = .ok ⟨a, b, c⟩) ∧
    (pyFloat3 (pySplit sep l2) = none → ∃ e, readEventStats all sep i = .error e) := by
  rcases h0 : (pySplit sep l2)[0]? with _ | s0
  · refine ⟨fun a b c h3 => ?_, fun _ => ⟨.indexError, ?_⟩⟩
    · simp [pyFloat3, h0] at h3
    · simp [readEventStats, hl2, pyFloatTok, h0]
  rcases h1 : (pySplit sep l2)[1]? with _ | s1
  · refine ⟨fun a b c h3 => ?_, fun _ => ?_⟩
    · simp [pyFloat3, h0, h1] at h3
    · rcases hf0 : pyFloat? s0 with _ | x
      · exact ⟨.valueError, by simp [readEventStats, hl2, pyFloatTok, h0, h1, hf0]⟩
      · exact ⟨.indexError, by simp [readEventStats, hl2, pyFloatTok, h0, h1, hf0]⟩
  rcases h2 : (pySplit sep l2)[2]? with _ | s2
  · refine ⟨fun a b c h3 => ?_, fun _ => ?_⟩
    · simp [pyFloat3, h0, h1, h2] at h3
    · rcases hf0 : pyFloat? s0 with _ | x
      · exact ⟨.valueError, by simp [readEventStats, hl2, pyFloatTok, h0, h1, h2, hf0]⟩
      rcases hf1 : pyFloat? s1 with _ | y
      · exact ⟨.valueError, by simp [readEventStats, hl2, pyFloatTok, h0, h1, h2, hf0, hf1]⟩
      · exact ⟨.indexError, by simp [readEventStats, hl2, pyFloatTok, h0, h1, h2, hf0, hf1]⟩
  rcases hf0 : pyFloat? s0 with _ | x
  · refine ⟨fun a b c h3 => ?_, fun _ => ⟨.valueError, ?_⟩⟩
    · simp [pyFloat3, h0, h1, h2, hf0] at h3
    · simp [readEventStats, hl2, pyFloatTok, h0, h1, h2, hf0]
  rcases hf1 : pyFloat? s1 with _ | y
  · refine ⟨fun a b c h3 => ?_, fun _ => ⟨.valueError, ?_⟩⟩
    · simp [pyFloat3, h0, h1, h2, hf0, hf1] at h3
    · simp [readEventStats, hl2, pyFloatTok, h0, h1, h2, hf0, hf1]
  rcases hf2 : pyFloat? s2 with _ | z
  · refine ⟨fun a b c h3 => ?_, fun _ => ⟨.valueError, ?_⟩⟩
    · simp [pyFloat3, h0, h1, h2, hf0, hf1, hf2] at h3
    · simp [readEventStats, hl2, pyFloatTok, h0, h1, h2, hf0, hf1, hf2]
  refine ⟨fun a b c h3 => ?_, fun h3 => ?_⟩
  · simp only [pyFloat3, h0, h1, h2, hf0, hf1, hf2, Option.some.injEq, Prod.mk.injEq] at h3
    obtain ⟨rfl, rfl, rfl⟩ := h3
    simp [readEventStats, hl2, pyFloatTok, h0, h1, h2, hf0, hf1, hf2]
  · simp [pyFloat3, h0, h1, h2, hf0, hf1, hf2] at h3

/-- C7: when the mission extractor loop meets a line whose key is
"Number of events fired per execution" (with at least two fields), it reads
the line exactly 2 positions after the key line and stores its first three
tokens parsed as floats as the mean/min/max event statistics; when that line
is missing or does not parse as three floats, the parse fails. -/
theorem C7_event_stats_lookahead (all : List String) (sep : Char) (i : ℕ)
    (line : String) (rest : List String) (acc : MissionSpecs)
    (hkey : pyStrip ((pySplit sep line).headD "")
      = "Number of events fired per execution")
    (hlen : 2 ≤ (pySplit sep line).length) :
    (∀ l2, all[i + 2]? = some l2 →
      (∀ a b c, pyFloat3 (pySplit sep l2) = some (a, b, c) →
        missionLoop all sep i (line :: rest) acc
          = missionLoop all sep (i + 1) rest
              { acc with event_fired_stats := some ⟨a, b, c⟩ }) ∧
      (pyFloat3 (pySplit sep l2) = none →
        ∃ e, missionLoop all sep i (line :: rest) acc = .error e)) ∧
    (all[i + 2]? = none → ∃ e, missionLoop all sep i (line :: rest) acc = .error e) := by
  have hlen1 : ¬ ((pySplit sep line).length ≤ 1) := by omega
  have hstep : missionLoop all sep i (line :: rest) acc
      = (match readEventStats all sep i with
         | .ok st => missionLoop all sep (i + 1) rest { acc with event_fired_stats := some st }
         | .error e => .error e) := by
    have hkey' : pyStrip ((pySplit sep line).head?.getD "")
        = "Number of events fired per execution" := by simpa using hkey
    simp [missionLoop, hkey', if_neg hlen1]
  refine ⟨fun l2 hl2 => ⟨fun a b c h3 => ?_, fun h3 => ?_⟩, fun hl2 => ?_⟩
  · rw [hstep, (readEventStats_spec all sep i l2 hl2).1 a b c h3]
  · obtain ⟨e, he⟩ := (readEventStats_spec all sep i l2 hl2).2 h3
    exact ⟨e, by rw [hstep, he]⟩
  · refine ⟨.indexError, ?_⟩
    rw [hstep, show readEventStats all sep i = .error .indexError from by
      simp [readEventStats, hl2]]

/-- Witness for C7 at a concrete section with valid look-ahead statistics. -/
theorem C7_witness :
    missionLoop ["Number of events fired per execution\tx", "", "1.0\t2.0\t3.0"] '\t' 0
        ["Number of events fired per execution\tx"] {}
      = missionLoop ["Number of events fired per execution\tx", "", "1.0\t2.0\t3.0"] '\t' 1 []
          { event_fired_stats := some ⟨PyFloat.val 1, PyFloat.val 2, PyFloat.val 3⟩ } :=
  ((C7_event_stats_lookahead ["Number of events fired per execution\tx", "", "1.0\t2.0\t3.0"]
      '\t' 0 "Number of events fired per execution\tx" [] {} (by decide) (by decide)).1
    "1.0\t2.0\t3.0" rfl).1 (PyFloat.val 1) (PyFloat.val 2) (PyFloat.val 3) (by decide)

theorem dictLookup_mem {d : IndicsDict} {k : String} {v : STOIndicator}
    (h : dictLookup d k = some v) : (k, v) ∈ d := by
  induction d with
  | nil => exact Option.noConfusion h
  | cons p d ih =>
    by_cases hk : p.1 = k
    · simp only [dictLookup, if_pos hk] at h
      injection h with hv
      subst hk
      subst hv
      exact List.mem_cons_self _ _
    · simp only [dictLookup, if_neg hk] at h
      exact List.mem_cons_of_mem _ (ih h)

theorem mem_dictSet {d : IndicsDict} {k : String} {v : STOIndicator}
    {p : String × STOIndicator} (h : p ∈ dictSet d k v) : p ∈ d ∨ p = (k, v) := by
  unfold dictSet at h
  split at h
  · obtain ⟨q, hq, hpq⟩ := List.mem_map.1 h
    by_cases hk : q.1 = k
    · right
      rw [← hpq, if_pos hk]
    · left
      rw [← hpq, if_neg hk]
      exact hq
  · rcases List.mem_append.1 h with h | h
    · exact Or.inl h
    · right
      simpa using h

theorem dictLookup_map_none {d : IndicsDict} {id k : String} {v : STOIndicator}
    (h : dictLookup d id = none) (hne : k ≠ id) :
    dictLookup (d.map (fun p => if p.1 = k then (k, v) else p)) id = none := by
  induction d with
  | nil => rfl
  | cons p d ih =>
    simp only [dictLookup] at h
    by_cases hp : p.1 = id
    · rw [if_pos hp] at h
      exact Option.noConfusion h
    rw [if_neg hp] at h
    simp only [List.map_cons]
    by_cases hpk : p.1 = k
    · rw [if_pos hpk]
      simp only [dictLookup, if_neg hne]
      exact ih h
    · rw [if_neg hpk]
      simp only [dictLookup, if_neg hp]
      exact ih h

theorem dictLookup_append_none {d : IndicsDict} {id k : String} {v : STOIndicator}
    (h : dictLookup d id = none) (hne : k ≠ id) :
    dictLookup (d ++ [(k, v)]) id = none := by
  induction d with
  | nil => simp [dictLookup, if_neg hne]
  | cons p d ih =>
    simp only [dictLookup, List.cons_append] at h ⊢
    by_cases hp : p.1 = id
    · rw [if_pos hp] at h
      exact Option.noConfusion h
    · rw [if_neg hp] at h ⊢
      exact ih h

theorem dictLookup_set_none {d : IndicsDict} {id k : String} {v : STOIndicator}
    (h : dictLookup d id = none) (hne : k ≠ id) :
    dictLookup (dictSet d k v) id = none := by
  unfold dictSet
  split
  · exact dictLookup_map_none h hne
  · exact dictLookup_append_none h hne

/-- The invariant on every parsed sample point: positive sample size, and the
`ic95` field is the recorded outcome of `1.96*std/√sample_size`. -/
def PtInv (pt : SamplePoint) : Prop :=
  0 < pt.sample_size ∧
  (pt.std = PyFloat.nan → pt.ic95 = Ic95.nan) ∧
  (∀ q, pt.std = PyFloat.val q → pt.ic95 = Ic95.deriv q pt.sample_size) ∧
  (∀ b, pt.std = PyFloat.inf b → pt.ic95 = Ic95.inf b)

/-- The invariant maintained for every dictionary entry through both phases:
the key, `id` and `name` coincide and every stored sample point satisfies
`PtInv`. -/
def EntryInv (p : String × STOIndicator) : Prop :=
  p.2.name = p.2.id ∧ p.2.id = p.1 ∧ ∀ pt ∈ p.2.data.getD [], PtInv pt

theorem computeIc95_ok {std : PyFloat} {n : ℤ} {v : Ic95}
    (h : computeIc95 std n = .ok v) :
    0 < n ∧ (std = PyFloat.nan → v = Ic95.nan) ∧
      (∀ q, std = PyFloat.val q → v = Ic95.deriv q n) ∧
      (∀ b, std = PyFloat.inf b → v = Ic95.inf b) := by
  unfold computeIc95 at h
  split at h
  · exact Except.noConfusion h
  · split at h
    · exact Except.noConfusion h
    · rename_i h1 h2
      injection h with h'
      refine ⟨by omega, fun hs => ?_, fun q hs => ?_, fun b hs => ?_⟩ <;>
        (subst hs; exact h'.symm)

theorem mkSamplePoint_ok {ls : List String} {pt : SamplePoint}
    (h : mkSamplePoint ls = .ok pt) : PtInv pt := by
  rcases hd : pyFloat? (ls.headD "") with _ | date
  · simp only [mkSamplePoint, hd] at h
    exact Except.noConfusion h
  rcases h1 : ls[1]? with _ | s1
  · simp only [mkSamplePoint, hd, h1] at h
    exact Except.noConfusion h
  rcases h2 : pyInt? s1 with _ | n
  · simp only [mkSamplePoint, hd, h1, h2] at h
    exact Except.noConfusion h
  rcases h3 : (if 3 ≤ ls.length then pyFloat? (ls.getD 2 "") else some PyFloat.nan)
      with _ | mean
  · simp only [mkSamplePoint, hd, h1, h2, h3] at h
    exact Except.noConfusion h
  rcases h4 : (if 4 ≤ ls.length then pyFloat? (ls.getD 3 "") else some PyFloat.nan)
      with _ | std
  · simp only [mkSamplePoint, hd, h1, h2, h3, h4] at h
    exact Except.noConfusion h
  rcases hic : computeIc95 std n with e | v
  · simp only [mkSamplePoint, hd, h1, h2, h3, h4, hic] at h
    exact Except.noConfusion h
  simp only [mkSamplePoint, hd, h1, h2, h3, h4, hic, Except.ok.injEq] at h
  subst h
  obtain ⟨hn, hnan, hval, hinf⟩ := computeIc95_ok hic
  exact ⟨hn, hnan, hval, hinf⟩

theorem indicPhase1_inv (sep : Char) (lines : List String) (i : ℕ) (acc : IndicsDict)
    (hacc : ∀ p ∈ acc, EntryInv p) :
    ∀ p ∈ (indicPhase1 sep lines i acc).1, EntryInv p := by
  induction lines generalizing i acc with
  | nil => simpa [indicPhase1] using hacc
  | cons line rest ih =>
    simp only [indicPhase1]
    split
    · simpa using hacc
    · apply ih
      intro p hp
      rcases mem_dictSet hp with h | rfl
      · exact hacc p h
      · refine ⟨rfl, rfl, fun pt hpt => ?_⟩
        exact absurd hpt (by simp [STOIndicator.ofRaw])

theorem phase2_inv (sep : Char) (lines : List String) (d : IndicsDict)
    (cur : Option String) (d' : IndicsDict) (h : phase2 sep lines d cur = .ok d')
    (hd : ∀ p ∈ d, EntryInv p) : ∀ p ∈ d', EntryInv p := by
  induction lines generalizing d cur with
  | nil =>
    simp only [phase2, Except.ok.injEq] at h
    subst h
    exact hd
  | cons line rest ih =>
    by_cases hi : (pySplit sep (pyStrip line)).headD "" = "Indicator"
    · simp only [phase2, if_pos hi] at h
      rcases h1 : (pySplit sep (pyStrip line))[1]? with _ | id
      · simp only [h1] at h
        exact Except.noConfusion h
      simp only [h1] at h
      rcases hl : dictLookup d id with _ | ind
      · simp only [hl] at h
        exact Except.noConfusion h
      simp only [hl] at h
      refine ih _ _ h ?_
      intro p hp
      rcases mem_dictSet hp with hpd | rfl
      · exact hd p hpd
      · obtain ⟨hn, hid, _⟩ := hd (id, ind) (dictLookup_mem hl)
        exact ⟨hn, hid, fun pt hpt => absurd hpt (by simp)⟩
    · simp only [phase2, if_neg hi] at h
      rcases cur with _ | id
      · rw [if_neg (by simp)] at h
        exact ih _ _ h hd
      · by_cases hf : is_float ((pySplit sep (pyStrip line)).headD "") = true
        · rw [if_pos (show (is_float ((pySplit sep (pyStrip line)).headD "")
              && (some id).isSome) = true by rw [hf]; rfl)] at h
          rcases hmk : mkSamplePoint (pySplit sep (pyStrip line)) with e | pt
          · simp only [hmk] at h
            exact Except.noConfusion h
          simp only [hmk] at h
          rcases hl : dictLookup d id with _ | ind
          · simp only [hl] at h
            exact Except.noConfusion h
          simp only [hl] at h
          rcases hdata : ind.data with _ | pts
          · simp only [hdata] at h
            exact Except.noConfusion h
          simp only [hdata] at h
          refine ih _ _ h ?_
          intro p hp
          rcases mem_dictSet hp with hpd | rfl
          · exact hd p hpd
          · obtain ⟨hn, hid, hpts⟩ := hd (id, ind) (dictLookup_mem hl)
            refine ⟨hn, hid, fun pt' hpt' => ?_⟩
            rcases List.mem_append.1 hpt' with hold | hnew
            · refine hpts pt' ?_
              rw [hdata]
              exact hold
            · obtain rfl := List.mem_singleton.1 hnew
              exact mkSamplePoint_ok hmk
        · rw [Bool.not_eq_true] at hf
          rw [if_neg (show ¬ ((is_float ((pySplit sep (pyStrip line)).headD "")
              && (some id).isSome) = true) by rw [hf]; simp)] at h
          exact ih _ _ h hd

theorem mem_finalizeData {d : IndicsDict} {p : String × STOIndicator}
    (h : p ∈ finalizeData d) :
    ∃ q ∈ d, p = (q.1, { q.2 with data := some (q.2.data.getD []) }) := by
  obtain ⟨q, hq, hpq⟩ := List.mem_map.1 h
  exact ⟨q, hq, hpq.symm⟩

/-- C9: every indicator built by the indicator table extractor has its `name`
equal to its `id`, which equals its dictionary key (the definition row's
trimmed first field); the `"{observer}__{measure}"` name default is therefore
never applied to report-parsed indicators. -/
theorem C9_name_equals_id (raw_lines : List String) (sep : Char) (d : IndicsDict)
    (h : indicators_from_raw_lines raw_lines sep = .ok d)
    (p : String × STOIndicator) (hp : p ∈ d) :
    p.2.name = p.2.id ∧ p.2.id = p.1 := by
  rcases hph : phase2 sep (indicDataLines raw_lines sep) (indicPhase1Res raw_lines sep).1 none
      with e | d0
  · simp only [indicators_from_raw_lines, hph] at h
    exact Except.noConfusion h
  simp only [indicators_from_raw_lines, hph, Except.ok.injEq] at h
  subst h
  obtain ⟨q, hq, rfl⟩ := mem_finalizeData hp
  have hinv := phase2_inv sep _ _ _ _ hph
    (indicPhase1_inv sep (indicDefLines raw_lines sep) 0 [] (by simp)) q hq
  exact ⟨hinv.1, hinv.2.1⟩

/-- The indicator parsed from the witness report of C9 (a definition row with
no data block). -/
def c9indic : STOIndicator :=
  { id := "ind1", name := "ind1", description := "ind1", observer := some "obs1",
    value := "non applicable", data := some [] }

/-- Witness for C9 at a concrete report. -/
theorem C9_witness :
    ("ind1", c9indic).2.name = ("ind1", c9indic).2.id ∧
      ("ind1", c9indic).2.id = ("ind1", c9indic).1 :=
  C9_name_equals_id ["Indicators", "hdr", "ind1\tobs1"] '\t' [("ind1", c9indic)]
    (by decide) ("ind1", c9indic) (by decide)

/-- C1 (amended): for every sample point of a successfully parsed report,
`sample_size > 0` and `ic95` is exactly the recorded value of
`1.96*std/√sample_size`: NaN when `std` is NaN, the symbolic quotient
`Ic95.deriv std sample_size` when `std` is a finite value, the like-signed
infinity when `std` is infinite.  A data row with `sample_size = 0` never
reaches the result: it raises `ZeroDivisionError` (see the counterexample),
so NaN is never produced for a zero sample size. -/
theorem C1_ic95_amended (raw_lines : List String) (sep : Char) (d : IndicsDict)
    (h : indicators_from_raw_lines raw_lines sep = .ok d)
    (p : String × STOIndicator) (hp : p ∈ d)
    (pt : SamplePoint) (hpt : pt ∈ p.2.data.getD []) :
    0 < pt.sample_size ∧
    (pt.std = PyFloat.nan → pt.ic95 = Ic95.nan) ∧
    (∀ q, pt.std = PyFloat.val q → pt.ic95 = Ic95.deriv q pt.sample_size) ∧
    (∀ b, pt.std = PyFloat.inf b → pt.ic95 = Ic95.inf b) := by
  rcases hph : phase2 sep (indicDataLines raw_lines sep) (indicPhase1Res raw_lines sep).1 none
      with e | d0
  · simp only [indicators_from_raw_lines, hph] at h
    exact Except.noConfusion h
  simp only [indicators_from_raw_lines, hph, Except.ok.injEq] at h
  subst h
  obtain ⟨q, hq, rfl⟩ := mem_finalizeData hp
  have hinv := phase2_inv sep _ _ _ _ hph
    (indicPhase1_inv sep (indicDefLines raw_lines sep) 0 [] (by simp)) q hq
  exact hinv.2.2 pt hpt

/-- C1 counterexample: a report whose only data row has `sample_size = 0`
makes the parse raise `ZeroDivisionError` (Python divides by the float
`math.sqrt(0) = 0.0`), instead of yielding a sample point with `ic95 = NaN`
as the claim states. -/
theorem C1_counterexample :
    indicators_from_raw_lines
        ["Indicators", "", "ind1\tobs1", "", "Indicator\tind1", "0.0\t0"] '\t'
      = .error .zeroDivisionError := by decide

/-- The sample point parsed from the witness report of C1. -/
def c1pt : SamplePoint :=
  { date := PyFloat.val 0, sample_size := 100, mean := PyFloat.val 5,
    std := PyFloat.val 1, ic95 := Ic95.deriv 1 100 }

/-- Witness for the amended C1 at a concrete report. -/
theorem C1_witness :
    0 < c1pt.sample_size ∧
    (c1pt.std = PyFloat.nan → c1pt.ic95 = Ic95.nan) ∧
    (∀ q, c1pt.std = PyFloat.val q → c1pt.ic95 = Ic95.deriv q c1pt.sample_size) ∧
    (∀ b, c1pt.std = PyFloat.inf b → c1pt.ic95 = Ic95.inf b) :=
  C1_ic95_amended c8lines '\t' [("ind1", c8indic)] (by decide) ("ind1", c8indic)
    (by decide) c1pt (by decide)

theorem phase2_error_of_undef (sep : Char) (lines : List String) (d : IndicsDict)
    (cur : Option String)
    (hex : ∃ line ∈ lines, (pySplit sep (pyStrip line)).headD "" = "Indicator" ∧
      ∃ id, (pySplit sep (pyStrip line))[1]? = some id ∧ dictLookup d id = none) :
    ∃ e, phase2 sep lines d cur = .error e := by
  induction lines generalizing d cur with
  | nil =>
    obtain ⟨line, hline, _⟩ := hex
    exact absurd hline (List.not_mem_nil _)
  | cons l rest ih =>
    obtain ⟨line, hline, hind, id, hid, hnone⟩ := hex
    by_cases hi : (pySplit sep (pyStrip l)).headD "" = "Indicator"
    · rcases h1 : (pySplit sep (pyStrip l))[1]? with _ | id2
      · refine ⟨.indexError, ?_⟩
        simp only [phase2, if_pos hi, h1]
      rcases hl : dictLookup d id2 with _ | ind
      · refine ⟨.keyError, ?_⟩
        simp only [phase2, if_pos hi, h1, hl]
      · rcases List.mem_cons.1 hline with rfl | hmem
        · rw [h1] at hid
          injection hid with hid
          subst hid
          rw [hl] at hnone
          exact Option.noConfusion hnone
        · have hne : id2 ≠ id := by
            intro he
            subst he
            rw [hl] at hnone
            exact Option.noConfusion hnone
          obtain ⟨e, he⟩ := ih (dictSet d id2 { ind with data := some [] }) (some id2)
            ⟨line, hmem, hind, id, hid, dictLookup_set_none hnone hne⟩
          refine ⟨e, ?_⟩
          simp only [phase2, if_pos hi, h1, hl]
          exact he
    · have hmem : line ∈ rest := by
        rcases List.mem_cons.1 hline with rfl | hmem
        · exact absurd hind hi
        · exact hmem
      rcases cur with _ | cid
      · obtain ⟨e, he⟩ := ih d none ⟨line, hmem, hind, id, hid, hnone⟩
        refine ⟨e, ?_⟩
        simp only [phase2, if_neg hi]
        rw [if_neg (show ¬ ((is_float ((pySplit sep (pyStrip l)).headD "")
            && (none : Option String).isSome) = true) by simp)]
        exact he
      · by_cases hf : is_float ((pySplit sep (pyStrip l)).headD "") = true
        · rcases hmk : mkSamplePoint (pySplit sep (pyStrip l)) with e | pt
          · refine ⟨e, ?_⟩
            simp only [phase2, if_neg hi]
            rw [if_pos (show (is_float ((pySplit sep (pyStrip l)).headD "")
                && (some cid).isSome) = true by rw [hf]; rfl)]
            simp only [hmk]
          rcases hl : dictLookup d cid with _ | ind
          · refine ⟨.keyError, ?_⟩
            simp only [phase2, if_neg hi]
            rw [if_pos (show (is_float ((pySplit sep (pyStrip l)).headD "")
                && (some cid).isSome) = true by rw [hf]; rfl)]
            simp only [hmk, hl]
          rcases hdata : ind.data with _ | pts
          · refine ⟨.attributeError, ?_⟩
            simp only [phase2, if_neg hi]
            rw [if_pos (show (is_float ((pySplit sep (pyStrip l)).headD "")
                && (some cid).isSome) = true by rw [hf]; rfl)]
            simp only [hmk, hl, hdata]
          · have hne : cid ≠ id := by
              intro he
              subst he
              rw [hl] at hnone
              exact Option.noConfusion hnone
            obtain ⟨e, he⟩ := ih (dictSet d cid { ind with data := some (pts ++ [pt]) })
              (some cid) ⟨line, hmem, hind, id, hid, dictLookup_set_none hnone hne⟩
            refine ⟨e, ?_⟩
            simp only [phase2, if_neg hi]
            rw [if_pos (show (is_float ((pySplit sep (pyStrip l)).headD "")
                && (some cid).isSome) = true by rw [hf]; rfl)]
            simp only [hmk, hl, hdata]
            exact he
        · rw [Bool.not_eq_true] at hf
          obtain ⟨e, he⟩ := ih d (some cid) ⟨line, hmem, hind, id, hid, hnone⟩
          refine ⟨e, ?_⟩
          simp only [phase2, if_neg hi]
          rw [if_neg (show ¬ ((is_float ((pySplit sep (pyStrip l)).headD "")
              && (some cid).isSome) = true) by rw [hf]; simp)]
          exact he

/-- C2: a report whose data phase contains a line whose first field is the
literal "Indicator" naming an indicator identifier never defined in phase 1
makes the indicator parse fail (the Python dictionary lookup raises), never a
silent skip. -/
theorem C2_undefined_indicator_error (raw_lines : List String) (sep : Char)
    (line : String) (hmem : line ∈ indicDataLines raw_lines sep)
    (hind : (pySplit sep (pyStrip line)).headD "" = "Indicator")
    (id : String) (hid : (pySplit sep (pyStrip line))[1]? = some id)
    (hundef : dictLookup (indicPhase1Res raw_lines sep).1 id = none) :
    ∃ e, indicators_from_raw_lines raw_lines sep = .error e := by
  obtain ⟨e, he⟩ := phase2_error_of_undef sep (indicDataLines raw_lines sep)
    (indicPhase1Res raw_lines sep).1 none ⟨line, hmem, hind, id, hid, hundef⟩
  refine ⟨e, ?_⟩
  simp only [indicators_from_raw_lines, he]

/-- Witness for C2 at a concrete report referencing the undefined id "ind2". -/
theorem C2_witness :
    ∃ e, indicators_from_raw_lines
      ["Indicators", "", "ind1\tobs1", "", "Indicator\tind2"] '\t' = .error e :=
  C2_undefined_indicator_error ["Indicators", "", "ind1\tobs1", "", "Indicator\tind2"]
    '\t' "Indicator\tind2" (by decide) (by decide) "ind2" (by decide) (by decide)

